import Mathlib

/-!
Verification of the adaptive rate-governed HTTP request layer of auditgh
(`src/github/rate_limit.py`).

Modelling conventions:
* Seconds and timestamps are exact rationals (`ℚ`); the Python source uses
  floats, but every claim is about the arithmetic the code performs, so we
  work in exact arithmetic.
* Rate-limit headers are modelled as already-parsed optional integers
  (`Option Int` / `Option ℚ`): `none` means the header is absent (or, for
  `Retry-After`, absent / empty / unparseable, which the source folds into
  the same no-op).  The defaults applied by the source on an absent header
  (`"0"`, `"-1"`, ...) appear explicitly as `Option.getD` in the
  definitions below.
* `time.time()` and `time.monotonic()` are both modelled by one clock value
  `now` that is passed in explicitly; the executor runs with a frozen clock
  (sleeps are recorded as events, not enacted), which is faithful for every
  property considered here since none depends on the clock advancing.
* The unbounded `while True:` retry loop of `request_with_rate_limit` is
  modelled by structural recursion over the finite trace of transport
  outcomes the fake transport will produce; running off the end of the
  trace yields the distinguished outcome `outOfTrace`.
-/

namespace AuditGH

/-- A parsed HTTP response: status code plus the four rate-limit-relevant
headers (`X-RateLimit-Limit`, `X-RateLimit-Remaining`, `X-RateLimit-Reset`,
`Retry-After`), each `none` when absent. -/
structure HttpResponse where
  status : Nat
  limit : Option Int
  remaining : Option Int
  reset : Option Int
  retryAfter : Option ℚ
deriving DecidableEq

/-- State of `_AdaptiveRateLimiter`: the shared pacing state attached to a
session.  `next_ts` is the `_next_ts` monotonic timestamp. -/
structure Limiter where
  interval : ℚ
  min_interval : ℚ
  max_interval : ℚ
  target_util : ℚ
  smoothing : ℚ
  next_ts : ℚ
deriving DecidableEq

/-- `_AdaptiveRateLimiter.__init__`: clamps the initial interval into
`[min_interval, max_interval]`, `target_util` into `[0.05, 0.95]`,
`smoothing` into `[0.05, 0.9]`, and starts `next_ts` at the current
monotonic time. -/
def Limiter.init (initial_interval min_interval max_interval target_util smoothing now : ℚ) :
    Limiter :=
  { interval := max (min initial_interval max_interval) min_interval
    min_interval := min_interval
    max_interval := max_interval
    target_util := max 0.05 (min 0.95 target_util)
    smoothing := max 0.05 (min 0.9 smoothing)
    next_ts := now }

/-- The granted start time computed inside `wait_turn`:
`base = now if now > self._next_ts else self._next_ts`. -/
def grantedStart (l : Limiter) (now : ℚ) : ℚ :=
  if l.next_ts < now then now else l.next_ts

/-- `_AdaptiveRateLimiter.wait_turn`: returns the duration the caller must
sleep and the updated limiter state (`_next_ts` advanced to the granted
start plus the current interval). -/
def wait_turn (l : Limiter) (now : ℚ) : ℚ × Limiter :=
  (max 0 (l.next_ts - now), { l with next_ts := grantedStart l now + l.interval })

/-- `_compute_rate_limit_sleep`: for a 403 whose (defaulted) remaining
quota is exactly 0, the sleep `max(0, reset - now + 2.0)`; otherwise
`None`. -/
def computeRateLimitSleep (resp : HttpResponse) (now : ℚ) : Option ℚ :=
  if resp.status = 403 ∧ resp.remaining.getD 0 = 0 then
    some (max 0 ((resp.reset.getD 0 : ℚ) - now + 2))
  else
    none

/-- The `reset_in = max(1.0, reset - now) if reset else 60.0` computation in
`adjust_from_response`. -/
def reset_in (reset : Int) (now : ℚ) : ℚ :=
  if reset ≠ 0 then max 1 ((reset : ℚ) - now) else 60

/-- The `allowed_rps = max(0.01, (remaining / reset_in) * self.target_util)`
computation in `adjust_from_response`. -/
def allowed_rps (l : Limiter) (remaining : Int) (ri : ℚ) : ℚ :=
  max 0.01 ((remaining : ℚ) / ri * l.target_util)

/-- The `target_interval = min(self.max_interval, max(self.min_interval,
1.0 / allowed_rps))` computation in `adjust_from_response`. -/
def target_interval (l : Limiter) (rps : ℚ) : ℚ :=
  min l.max_interval (max l.min_interval (1 / rps))

/-- `_AdaptiveRateLimiter.adjust_from_response`: returns the number of
seconds slept inside the call (the `Retry-After` sleep, 0 otherwise)
together with the updated limiter state.
* If the status is 403 or 429 and a positive `Retry-After` value is
  present, push `_next_ts` to `now + ra`, multiply `interval` by 1.5
  clamped to `max_interval`, sleep `ra` and return.
* Otherwise, when `remaining ≥ 0` and `limit > 0` (with header defaults
  0 / -1 / 0), blend `interval` toward `target_interval` by the EMA
  factor `smoothing`.
The guard of the first branch (`ra` present and `ra_s and ra_s > 0`) is
split out as `retry_after_signal`. -/
def retry_after_signal (resp : HttpResponse) : Option ℚ :=
  if resp.status = 403 ∨ resp.status = 429 then
    match resp.retryAfter with
    | some ra => if 0 < ra then some ra else none
    | none => none
  else none

def adjust_from_response (l : Limiter) (resp : HttpResponse) (now : ℚ) : ℚ × Limiter :=
  match retry_after_signal resp with
  | some ra =>
      (ra, { l with next_ts := now + ra, interval := min l.max_interval (l.interval * 1.5) })
  | none =>
      if 0 ≤ resp.remaining.getD (-1) ∧ 0 < resp.limit.getD 0 then
        (0, { l with interval := l.interval * (1 - l.smoothing) +
          target_interval l (allowed_rps l (resp.remaining.getD (-1))
            (reset_in (resp.reset.getD 0) now)) * l.smoothing })
      else
        (0, l)

/-- `_AdaptiveRateLimiter.bump_after_hard_reset`: doubles `interval`,
clamped into `[min_interval, max_interval]`.  It takes no wait argument and
leaves `_next_ts` untouched. -/
def bump_after_hard_reset (l : Limiter) : Limiter :=
  { l with interval := min l.max_interval (max l.min_interval (l.interval * 2)) }

/-- One outcome of the fake transport: either `session.request` raises a
`RequestException`, or it returns a response. -/
inductive SendOutcome where
  | exn : SendOutcome
  | resp : HttpResponse → SendOutcome
deriving DecidableEq

/-- A sleep performed by the executor, tagged by which code path slept. -/
inductive SleepEvent where
  | pacing : ℚ → SleepEvent
  | backoff : ℚ → SleepEvent
  | hardReset : ℚ → SleepEvent
  | retryAfter : ℚ → SleepEvent
deriving DecidableEq

/-- Terminal outcome of a run of the executor on a finite trace. -/
inductive ExecOutcome where
  | returned : HttpResponse → ExecOutcome
  | raised : ExecOutcome
  | outOfTrace : ExecOutcome
deriving DecidableEq

/-- Result of running the executor: terminal outcome, number of transport
send attempts performed, the sleeps performed in order, the final limiter
state, and the final value of the `attempt` counter. -/
structure RunResult where
  outcome : ExecOutcome
  sends : Nat
  sleeps : List SleepEvent
  limiter : Option Limiter
  attempt : Nat
deriving DecidableEq

/-- Configuration of `request_with_rate_limit` plus the frozen clock. -/
structure ExecConfig where
  max_attempts : Nat
  backoff_base : ℚ
  min_delay_sec : ℚ
  now : ℚ
deriving DecidableEq

/-- Pre-request pacing: `limiter.wait_turn()` when a limiter is attached,
else `time.sleep(min_delay_sec)` when positive.  Returns the sleep events
performed and the updated limiter. -/
def paceEvents (lim : Option Limiter) (min_delay_sec now : ℚ) :
    List SleepEvent × Option Limiter :=
  match lim with
  | some l =>
      let p := wait_turn l now
      ((if 0 < p.1 then [.pacing p.1] else []), some p.2)
  | none =>
      ((if 0 < min_delay_sec then [.pacing min_delay_sec] else []), none)

/-- The `while True:` body of `request_with_rate_limit`, run against a
finite trace of transport outcomes.  `attempt` is incremented at the top of
every iteration, exactly as in the source. -/
def requestLoop (cfg : ExecConfig) :
    Option Limiter → Nat → Nat → List SleepEvent → List SendOutcome → RunResult
  | lim, attempt, sends, sleeps, [] =>
      { outcome := .outOfTrace, sends := sends, sleeps := sleeps,
        limiter := lim, attempt := attempt }
  | lim, attempt, sends, sleeps, o :: rest =>
      let a := attempt + 1
      let p := paceEvents lim cfg.min_delay_sec cfg.now
      match o with
      | .exn =>
          if cfg.max_attempts ≤ a then
            { outcome := .raised, sends := sends + 1, sleeps := sleeps ++ p.1,
              limiter := p.2, attempt := a }
          else
            requestLoop cfg p.2 a (sends + 1)
              (sleeps ++ p.1 ++ [.backoff (cfg.backoff_base ^ (a - 1))]) rest
      | .resp r =>
          match computeRateLimitSleep r cfg.now with
          | some w =>
              requestLoop cfg (p.2.map bump_after_hard_reset) a (sends + 1)
                (sleeps ++ p.1 ++ [.hardReset w]) rest
          | none =>
              if r.status = 429 ∨ r.status = 500 ∨ r.status = 502 ∨
                  r.status = 503 ∨ r.status = 504 then
                if cfg.max_attempts ≤ a then
                  { outcome := .returned r, sends := sends + 1, sleeps := sleeps ++ p.1,
                    limiter := p.2, attempt := a }
                else
                  requestLoop cfg p.2 a (sends + 1)
                    (sleeps ++ p.1 ++ [.backoff (cfg.backoff_base ^ (a - 1))]) rest
              else
                match p.2 with
                | some l =>
                    let adj := adjust_from_response l r cfg.now
                    { outcome := .returned r, sends := sends + 1,
                      sleeps := sleeps ++ p.1 ++
                        (if 0 < adj.1 then [.retryAfter adj.1] else []),
                      limiter := some adj.2, attempt := a }
                | none =>
                    { outcome := .returned r, sends := sends + 1, sleeps := sleeps ++ p.1,
                      limiter := none, attempt := a }

/-- `request_with_rate_limit`: run the retry loop from a fresh attempt
counter on the given trace of transport outcomes. -/
def request_with_rate_limit (cfg : ExecConfig) (lim : Option Limiter)
    (trace : List SendOutcome) : RunResult :=
  requestLoop cfg lim 0 0 [] trace

/-- The durations of the exponential-backoff sleeps within a sleep log. -/
def backoffSleeps (es : List SleepEvent) : List ℚ :=
  es.filterMap fun e =>
    match e with
    | .backoff d => some d
    | _ => none

/-! ### Helper lemmas -/

lemma backoffSleeps_append (a b : List SleepEvent) :
    backoffSleeps (a ++ b) = backoffSleeps a ++ backoffSleeps b := by
  simp [backoffSleeps, List.filterMap_append]

lemma backoffSleeps_paceEvents (lim : Option Limiter) (d now : ℚ) :
    backoffSleeps (paceEvents lim d now).1 = [] := by
  cases lim <;> simp [paceEvents, backoffSleeps]

/-! ### Claim theorems -/

/-- C1: `wait_turn` returns a nonnegative wait, grants the start time
`max(now, next_eligible)`, advances `next_eligible` by the current
interval, and two successive reservations (at arbitrary clock readings)
yield start times at least `interval` apart — in particular distinct when
the interval is positive, as the controller invariant guarantees. -/
theorem C1_reserve_slot (l : Limiter) (now1 now2 : ℚ) (h : 0 < l.interval) :
    0 ≤ (wait_turn l now1).1 ∧
    grantedStart l now1 = max now1 l.next_ts ∧
    ((wait_turn l now1).2).next_ts = grantedStart l now1 + l.interval ∧
    ((wait_turn l now1).2).interval = l.interval ∧
    l.interval ≤ grantedStart (wait_turn l now1).2 now2 - grantedStart l now1 ∧
    grantedStart (wait_turn l now1).2 now2 ≠ grantedStart l now1 := by
  have hstart : ∀ lm : Limiter, ∀ t : ℚ, lm.next_ts ≤ grantedStart lm t := by
    intro lm t
    unfold grantedStart
    split
    · exact le_of_lt (by assumption)
    · exact le_refl _
  have h2 : grantedStart l now1 = max now1 l.next_ts := by
    unfold grantedStart
    split
    · exact (max_eq_left (le_of_lt (by assumption))).symm
    · exact (max_eq_right (le_of_not_lt (by assumption))).symm
  have h5 : l.interval ≤ grantedStart (wait_turn l now1).2 now2 - grantedStart l now1 := by
    have hle := hstart (wait_turn l now1).2 now2
    have hnext : ((wait_turn l now1).2).next_ts = grantedStart l now1 + l.interval := rfl
    rw [hnext] at hle
    linarith
  refine ⟨le_max_left _ _, h2, rfl, rfl, h5, ?_⟩
  intro heq
  rw [heq] at h5
  simp at h5
  linarith

/-- C1 witness: a concrete controller with interval 1 at `next_ts = 10`,
reserved at clock readings 10 and 10. -/
theorem C1_reserve_slot_witness :
    (0:ℚ) < (Limiter.init 1 1 1 1 1 10).interval ∧
    0 ≤ (wait_turn (Limiter.init 1 1 1 1 1 10) 10).1 ∧
    grantedStart (wait_turn (Limiter.init 1 1 1 1 1 10) 10).2 10 ≠
      grantedStart (Limiter.init 1 1 1 1 1 10) 10 :=
  ⟨by norm_num [Limiter.init],
   (C1_reserve_slot (Limiter.init 1 1 1 1 1 10) 10 10 (by norm_num [Limiter.init])).1,
   (C1_reserve_slot (Limiter.init 1 1 1 1 1 10) 10 10 (by norm_num [Limiter.init])).2.2.2.2.2⟩

/-- C7: for a 403 whose remaining-quota value is 0, the computed
hard-exhaustion wait is `max(0, reset − now + 2)` with fixed buffer 2 ≥ 0,
is never negative, and equals `30 + 2` when `reset = now + 30`; for any
other status, or a nonzero remaining value, no wait is produced. -/
theorem C7_hard_exhaustion_wait (r : HttpResponse) (now : ℚ) :
    (r.status = 403 ∧ r.remaining.getD 0 = 0 →
      computeRateLimitSleep r now = some (max 0 ((r.reset.getD 0 : ℚ) - now + 2)) ∧
      (0:ℚ) ≤ 2 ∧
      (∀ w, computeRateLimitSleep r now = some w →
        0 ≤ w ∧ ((r.reset.getD 0 : ℚ) = now + 30 → w = 30 + 2))) ∧
    (r.status ≠ 403 ∨ r.remaining.getD 0 ≠ 0 → computeRateLimitSleep r now = none) := by
  constructor
  · rintro ⟨h1, h2⟩
    have hs : computeRateLimitSleep r now =
        some (max 0 ((r.reset.getD 0 : ℚ) - now + 2)) := by
      simp [computeRateLimitSleep, h1, h2]
    refine ⟨hs, by norm_num, ?_⟩
    intro w hw
    rw [hs] at hw
    have hw' : w = max 0 ((r.reset.getD 0 : ℚ) - now + 2) := (Option.some_inj.mp hw).symm
    constructor
    · rw [hw']
      exact le_max_left _ _
    · intro hr
      rw [hw', hr]
      norm_num
  · intro hor
    rcases hor with hst | hrem
    · simp [computeRateLimitSleep, hst]
    · simp [computeRateLimitSleep, hrem]

/-- C7 witness: a concrete 403 with remaining 0 and reset 30 seconds ahead
of a clock at 1000 yields wait 32 = 30 + 2; a 404 yields no wait. -/
theorem C7_hard_exhaustion_wait_witness :
    computeRateLimitSleep ⟨403, none, some 0, some 1030, none⟩ 1000 =
      some (max 0 (((some (1030:Int)).getD 0 : ℚ) - 1000 + 2)) ∧
    computeRateLimitSleep ⟨404, none, some 0, some 1030, none⟩ 1000 = none :=
  ⟨((C7_hard_exhaustion_wait ⟨403, none, some 0, some 1030, none⟩ 1000).1
      ⟨rfl, rfl⟩).1,
   (C7_hard_exhaustion_wait ⟨404, none, some 0, some 1030, none⟩ 1000).2
      (Or.inl (by decide))⟩

/-- C10: the constructor clamps `target_util` into `[0.05, 0.95]` and
`smoothing` into `[0.05, 0.9]` for every supplied configuration, and no
operation of the limiter ever modifies either stored field. -/
theorem C10_clamped_immutable_factors :
    (∀ i mi ma tu s now,
      (0.05:ℚ) ≤ (Limiter.init i mi ma tu s now).target_util ∧
      (Limiter.init i mi ma tu s now).target_util ≤ (0.95:ℚ) ∧
      (0.05:ℚ) ≤ (Limiter.init i mi ma tu s now).smoothing ∧
      (Limiter.init i mi ma tu s now).smoothing ≤ (0.9:ℚ)) ∧
    (∀ l now, (wait_turn l now).2.target_util = l.target_util ∧
      (wait_turn l now).2.smoothing = l.smoothing) ∧
    (∀ l r now, (adjust_from_response l r now).2.target_util = l.target_util ∧
      (adjust_from_response l r now).2.smoothing = l.smoothing) ∧
    (∀ l, (bump_after_hard_reset l).target_util = l.target_util ∧
      (bump_after_hard_reset l).smoothing = l.smoothing) := by
  refine ⟨?_, ?_, ?_, ?_⟩
  · intro i mi ma tu s now
    refine ⟨le_max_left _ _, max_le (by norm_num) (min_le_left _ _),
      le_max_left _ _, max_le (by norm_num) (min_le_left _ _)⟩
  · intro l now
    exact ⟨rfl, rfl⟩
  · intro l r now
    unfold adjust_from_response
    cases retry_after_signal r
    · simp only
      split
      · exact ⟨rfl, rfl⟩
      · exact ⟨rfl, rfl⟩
    · exact ⟨rfl, rfl⟩
  · intro l
    exact ⟨rfl, rfl⟩

/-- C4: when the quota snapshot has `limit > 0`, `remaining ≥ 0` and a
nonzero reset (and no `Retry-After` signal), `adjust_from_response` blends
`interval` toward `clamp(1/allowed_rate, min_interval, max_interval)` with
`allowed_rate = max(0.01, remaining / max(1, reset − now) * target_util)`;
for the scenario `limit=5000, remaining=10, reset=now+60, util=0.6,
smoothing=0.3`, initial interval 1 (with `min_interval = 0.15` and a
`max_interval` of 30 that leaves the 10-second target unclamped), the
target interval is exactly 10 and the blended interval exactly 3.7. -/
theorem C4_ema_update (l : Limiter) (r : HttpResponse) (now : ℚ)
    (hra : r.retryAfter = none)
    (hlim : 0 < r.limit.getD 0) (hrem : 0 ≤ r.remaining.getD (-1))
    (hres : r.reset.getD 0 ≠ 0) :
    ((adjust_from_response l r now).2.interval =
      l.interval * (1 - l.smoothing) +
        (min l.max_interval (max l.min_interval
          (1 / max 0.01 ((r.remaining.getD (-1) : ℚ) / max 1 ((r.reset.getD 0 : ℚ) - now)
            * l.target_util)))) * l.smoothing) ∧
    ((adjust_from_response (Limiter.init 1 0.15 30 0.6 0.3 1000)
        ⟨200, some 5000, some 10, some 1060, none⟩ 1000).2.interval = 3.7 ∧
      target_interval (Limiter.init 1 0.15 30 0.6 0.3 1000)
        (allowed_rps (Limiter.init 1 0.15 30 0.6 0.3 1000) 10 (reset_in 1060 1000)) = 10) := by
  constructor
  · have hsig : retry_after_signal r = none := by
      simp [retry_after_signal, hra]
    rw [adjust_from_response, hsig]
    simp only [if_pos (And.intro hrem hlim), target_interval, allowed_rps, reset_in,
      if_pos hres]
  · constructor
    · norm_num [adjust_from_response, retry_after_signal, Limiter.init,
        target_interval, allowed_rps, reset_in]
    · norm_num [Limiter.init, target_interval, allowed_rps, reset_in]

/-- C4 witness: the theorem applied to the scenario inputs themselves. -/
theorem C4_ema_update_witness :
    (adjust_from_response (Limiter.init 1 0.15 30 0.6 0.3 1000)
      ⟨200, some 5000, some 10, some 1060, none⟩ 1000).2.interval = 3.7 :=
  (C4_ema_update (Limiter.init 1 0.15 30 0.6 0.3 1000)
    ⟨200, some 5000, some 10, some 1060, none⟩ 1000 rfl
    (by norm_num) (by norm_num) (by norm_num)).2.1

/-- C8 counterexample: `bump_after_hard_reset` leaves `next_eligible`
untouched — in particular it is not pushed forward by the 32-second wait a
hard stop at `reset = now + 30` supplies — while the doubling part does
hold. -/
theorem C8_counterexample :
    (bump_after_hard_reset ⟨1, 0.15, 5, 0.6, 0.3, 7⟩).next_ts = 7 ∧
    ¬ ((bump_after_hard_reset ⟨1, 0.15, 5, 0.6, 0.3, 7⟩).next_ts = 7 + 32) ∧
    (bump_after_hard_reset ⟨1, 0.15, 5, 0.6, 0.3, 7⟩).interval = 2 := by
  norm_num [bump_after_hard_reset]

/-- C8 (amended): `bump_after_hard_reset` takes no wait argument; it sets
`interval` to twice its value clamped into `[min_interval, max_interval]`
— hence never decreases it (given the interval invariant) and never
exceeds `max_interval` — and leaves `next_eligible` unchanged: the hard
wait is enforced by the executor sleeping, not by pushing `next_eligible`. -/
theorem C8_bump_amended (l : Limiter) (h0 : 0 ≤ l.interval)
    (hmax : l.interval ≤ l.max_interval) :
    (bump_after_hard_reset l).interval =
      min l.max_interval (max l.min_interval (l.interval * 2)) ∧
    l.interval ≤ (bump_after_hard_reset l).interval ∧
    (bump_after_hard_reset l).interval ≤ l.max_interval ∧
    (bump_after_hard_reset l).next_ts = l.next_ts := by
  refine ⟨rfl, ?_, min_le_left _ _, rfl⟩
  exact le_min hmax (le_trans (by linarith) (le_max_right l.min_interval (l.interval * 2)))

/-- C8 witness: the amended theorem at a concrete limiter. -/
theorem C8_bump_amended_witness :
    (bump_after_hard_reset ⟨1, 0.15, 5, 0.6, 0.3, 7⟩).interval ≤
      (⟨1, 0.15, 5, 0.6, 0.3, 7⟩ : Limiter).max_interval :=
  (C8_bump_amended ⟨1, 0.15, 5, 0.6, 0.3, 7⟩ (by norm_num) (by norm_num)).2.2.1

/-- C9 counterexample: with `min_interval = -2 ≤ 5 = max_interval` the
invariant holds after construction, but the secondary-limit adjustment
(403 with `Retry-After: 1`) multiplies the interval by 1.5 without
re-clamping from below, driving it to −3, strictly below `min_interval`. -/
theorem C9_counterexample :
    (Limiter.init (-2) (-2) 5 0.6 0.3 0).min_interval ≤
      (Limiter.init (-2) (-2) 5 0.6 0.3 0).max_interval ∧
    (Limiter.init (-2) (-2) 5 0.6 0.3 0).min_interval ≤
      (Limiter.init (-2) (-2) 5 0.6 0.3 0).interval ∧
    (Limiter.init (-2) (-2) 5 0.6 0.3 0).interval ≤
      (Limiter.init (-2) (-2) 5 0.6 0.3 0).max_interval ∧
    ¬ ((Limiter.init (-2) (-2) 5 0.6 0.3 0).min_interval ≤
        (adjust_from_response (Limiter.init (-2) (-2) 5 0.6 0.3 0)
          ⟨403, none, some 1, none, some 1⟩ 0).2.interval) := by
  norm_num [Limiter.init, adjust_from_response, retry_after_signal]

/-- The limiter invariant of the amended C9: nonnegative interval bounds
bracketing the current interval, plus the smoothing bounds the constructor
establishes. -/
def LimiterInv (l : Limiter) : Prop :=
  0 ≤ l.min_interval ∧ l.min_interval ≤ l.max_interval ∧
  l.min_interval ≤ l.interval ∧ l.interval ≤ l.max_interval ∧
  (0.05:ℚ) ≤ l.smoothing ∧ l.smoothing ≤ (0.9:ℚ)

/-- C9 (amended): the invariant `min_interval ≤ interval ≤ max_interval`
holds whenever `0 ≤ min_interval ≤ max_interval`: it is established at
construction and preserved by `wait_turn`, by both branches of
`adjust_from_response` (the nonnegativity of `min_interval` is what the
unclamped 1.5× secondary adjustment needs), and by
`bump_after_hard_reset`. -/
theorem C9_interval_invariant_amended :
    (∀ i mi ma tu s now, 0 ≤ mi → mi ≤ ma →
      LimiterInv (Limiter.init i mi ma tu s now)) ∧
    (∀ l now, LimiterInv l → LimiterInv (wait_turn l now).2) ∧
    (∀ l r now, LimiterInv l → LimiterInv (adjust_from_response l r now).2) ∧
    (∀ l, LimiterInv l → LimiterInv (bump_after_hard_reset l)) := by
  refine ⟨?_, ?_, ?_, ?_⟩
  · intro i mi ma tu s now h0 hmm
    exact ⟨h0, hmm, le_max_right _ _, max_le (le_trans (min_le_right _ _) le_rfl) hmm,
      le_max_left _ _, max_le (by norm_num) (min_le_left _ _)⟩
  · intro l now h
    exact h
  · intro l r now h
    obtain ⟨h0, hmm, hlo, hhi, hs0, hs1⟩ := h
    unfold adjust_from_response
    cases retry_after_signal r
    · simp only
      split
      · have hi0 : 0 ≤ l.interval := le_trans h0 hlo
        set t := target_interval l (allowed_rps l (r.remaining.getD (-1))
          (reset_in (r.reset.getD 0) now)) with ht
        have htlo : l.min_interval ≤ t := by
          rw [ht]
          exact le_min hmm (le_max_left _ _)
        have hthi : t ≤ l.max_interval := by
          rw [ht]
          exact min_le_left _ _
        have hb1 : 0 ≤ (l.interval - l.min_interval) * (1 - l.smoothing) :=
          mul_nonneg (by linarith) (by linarith)
        have hb2 : 0 ≤ (t - l.min_interval) * l.smoothing :=
          mul_nonneg (by linarith) (by linarith)
        have hb3 : 0 ≤ (l.max_interval - l.interval) * (1 - l.smoothing) :=
          mul_nonneg (by linarith) (by linarith)
        have hb4 : 0 ≤ (l.max_interval - t) * l.smoothing :=
          mul_nonneg (by linarith) (by linarith)
        refine ⟨h0, hmm, ?_, ?_, hs0, hs1⟩
        · show l.min_interval ≤ l.interval * (1 - l.smoothing) + t * l.smoothing
          nlinarith
        · show l.interval * (1 - l.smoothing) + t * l.smoothing ≤ l.max_interval
          nlinarith
      · exact ⟨h0, hmm, hlo, hhi, hs0, hs1⟩
    · have hi0 : 0 ≤ l.interval := le_trans h0 hlo
      refine ⟨h0, hmm, le_min hmm (by linarith), min_le_left _ _, hs0, hs1⟩
  · intro l h
    obtain ⟨h0, hmm, hlo, hhi, hs0, hs1⟩ := h
    exact ⟨h0, hmm, le_min hmm (le_max_left _ _), min_le_left _ _, hs0, hs1⟩

/-- C9 witness: the amended invariant established at construction and
preserved across a secondary-limit adjustment for a concrete limiter. -/
theorem C9_interval_invariant_amended_witness :
    LimiterInv (Limiter.init 1 0.15 5 0.6 0.3 0) ∧
    LimiterInv (adjust_from_response (Limiter.init 1 0.15 5 0.6 0.3 0)
      ⟨403, none, some 1, none, some 1⟩ 0).2 :=
  ⟨C9_interval_invariant_amended.1 1 0.15 5 0.6 0.3 0 (by norm_num) (by norm_num),
   C9_interval_invariant_amended.2.2.1 (Limiter.init 1 0.15 5 0.6 0.3 0)
     ⟨403, none, some 1, none, some 1⟩ 0
     (C9_interval_invariant_amended.1 1 0.15 5 0.6 0.3 0 (by norm_num) (by norm_num))⟩

lemma geom_map_cons (b : ℚ) (a m : Nat) :
    List.map (fun j => b ^ (a + j)) (List.range (m + 1))
      = b ^ a :: List.map (fun j => b ^ (a + 1 + j)) (List.range m) := by
  rw [List.range_succ_eq_map]
  simp only [List.map_cons, List.map_map, Nat.add_zero]
  refine congrArg _ (List.map_congr_left ?_)
  intro j _
  simp [Function.comp]
  congr 1
  omega

lemma requestLoop_exn_replicate (cfg : ExecConfig) :
    ∀ (k : Nat) (lim : Option Limiter) (a sends : Nat) (sleeps : List SleepEvent),
      a + k = cfg.max_attempts → 1 ≤ k →
      (requestLoop cfg lim a sends sleeps (List.replicate k .exn)).outcome = .raised ∧
      (requestLoop cfg lim a sends sleeps (List.replicate k .exn)).sends = sends + k ∧
      backoffSleeps (requestLoop cfg lim a sends sleeps (List.replicate k .exn)).sleeps =
        backoffSleeps sleeps ++
          (List.range (k - 1)).map (fun j => cfg.backoff_base ^ (a + j)) := by
  intro k
  induction k with
  | zero =>
      intro lim a sends sleeps hk h1
      exact absurd h1 (by omega)
  | succ n ih =>
      intro lim a sends sleeps hk _
      rw [List.replicate_succ]
      rcases Nat.eq_zero_or_pos n with hn | hn
      · subst hn
        have hc : cfg.max_attempts ≤ a + 1 := by omega
        simp [requestLoop, hc, backoffSleeps_append, backoffSleeps_paceEvents]
      · obtain ⟨m, rfl⟩ : ∃ m, n = m + 1 := ⟨n - 1, by omega⟩
        have hc : ¬ cfg.max_attempts ≤ a + 1 := by omega
        have step : requestLoop cfg lim a sends sleeps
              (SendOutcome.exn :: List.replicate (m + 1) .exn) =
            requestLoop cfg (paceEvents lim cfg.min_delay_sec cfg.now).2 (a + 1) (sends + 1)
              (sleeps ++ (paceEvents lim cfg.min_delay_sec cfg.now).1 ++
                [.backoff (cfg.backoff_base ^ a)]) (List.replicate (m + 1) .exn) := by
          simp [requestLoop, hc]
        rw [step]
        obtain ⟨o1, o2, o3⟩ := ih (paceEvents lim cfg.min_delay_sec cfg.now).2 (a + 1)
          (sends + 1) (sleeps ++ (paceEvents lim cfg.min_delay_sec cfg.now).1 ++
            [.backoff (cfg.backoff_base ^ a)]) (by omega) (by omega)
        refine ⟨o1, ?_, ?_⟩
        · rw [o2]
          omega
        · rw [o3, backoffSleeps_append, backoffSleeps_append, backoffSleeps_paceEvents]
          have hsingle : backoffSleeps [.backoff (cfg.backoff_base ^ a)] =
              [cfg.backoff_base ^ a] := by
            simp [backoffSleeps]
          rw [hsingle]
          have hr1 : (m + 1 + 1) - 1 = m + 1 := by omega
          have hr2 : (m + 1) - 1 = m := by omega
          rw [hr1, hr2, geom_map_cons]
          simp

/-- C5: with a transport that raises on every send and `max_attempts = N ≥ 1`,
the executor performs exactly `N` send attempts, sleeps
`backoff_base^(attempt−1)` between consecutive attempts, and then
propagates the transport exception (raises). -/
theorem C5_transport_always_raises (cfg : ExecConfig) (N : Nat) (lim : Option Limiter)
    (hN : 1 ≤ N) (hM : cfg.max_attempts = N) :
    (request_with_rate_limit cfg lim (List.replicate N .exn)).outcome = .raised ∧
    (request_with_rate_limit cfg lim (List.replicate N .exn)).sends = N ∧
    backoffSleeps (request_with_rate_limit cfg lim (List.replicate N .exn)).sleeps =
      (List.range (N - 1)).map (fun j => cfg.backoff_base ^ j) := by
  obtain ⟨o1, o2, o3⟩ := requestLoop_exn_replicate cfg N lim 0 0 [] (by omega) hN
  refine ⟨o1, by simpa using o2, ?_⟩
  rw [request_with_rate_limit, o3]
  simp [backoffSleeps]

/-- C5 witness: two guaranteed transport failures with `max_attempts = 2`
raise after exactly 2 sends with a single backoff sleep of `2^0`. -/
theorem C5_transport_always_raises_witness :
    (request_with_rate_limit ⟨2, 2, 0, 1000⟩ none (List.replicate 2 .exn)).outcome =
      .raised ∧
    (request_with_rate_limit ⟨2, 2, 0, 1000⟩ none (List.replicate 2 .exn)).sends = 2 :=
  ⟨(C5_transport_always_raises ⟨2, 2, 0, 1000⟩ 2 none (by norm_num) rfl).1,
   (C5_transport_always_raises ⟨2, 2, 0, 1000⟩ 2 none (by norm_num) rfl).2.1⟩

lemma transient_no_hard_sleep (r : HttpResponse) (now : ℚ)
    (hr : r.status = 429 ∨ r.status = 500 ∨ r.status = 502 ∨ r.status = 503 ∨
      r.status = 504) :
    computeRateLimitSleep r now = none := by
  rcases hr with h | h | h | h | h <;> simp [computeRateLimitSleep, h]

lemma requestLoop_transient_replicate (cfg : ExecConfig) (r : HttpResponse)
    (hr : r.status = 429 ∨ r.status = 500 ∨ r.status = 502 ∨ r.status = 503 ∨
      r.status = 504) :
    ∀ (k : Nat) (lim : Option Limiter) (a sends : Nat) (sleeps : List SleepEvent),
      a + k = cfg.max_attempts → 1 ≤ k →
      (requestLoop cfg lim a sends sleeps (List.replicate k (.resp r))).outcome =
        .returned r ∧
      (requestLoop cfg lim a sends sleeps (List.replicate k (.resp r))).sends = sends + k ∧
      backoffSleeps (requestLoop cfg lim a sends sleeps
          (List.replicate k (.resp r))).sleeps =
        backoffSleeps sleeps ++
          (List.range (k - 1)).map (fun j => cfg.backoff_base ^ (a + j)) := by
  have hhard : computeRateLimitSleep r cfg.now = none := transient_no_hard_sleep r cfg.now hr
  intro k
  induction k with
  | zero =>
      intro lim a sends sleeps hk h1
      exact absurd h1 (by omega)
  | succ n ih =>
      intro lim a sends sleeps hk _
      rw [List.replicate_succ]
      rcases Nat.eq_zero_or_pos n with hn | hn
      · subst hn
        have hc : cfg.max_attempts ≤ a + 1 := by omega
        simp [requestLoop, hc, hhard, hr, backoffSleeps_append, backoffSleeps_paceEvents]
      · obtain ⟨m, rfl⟩ : ∃ m, n = m + 1 := ⟨n - 1, by omega⟩
        have hc : ¬ cfg.max_attempts ≤ a + 1 := by omega
        have step : requestLoop cfg lim a sends sleeps
              (SendOutcome.resp r :: List.replicate (m + 1) (.resp r)) =
            requestLoop cfg (paceEvents lim cfg.min_delay_sec cfg.now).2 (a + 1) (sends + 1)
              (sleeps ++ (paceEvents lim cfg.min_delay_sec cfg.now).1 ++
                [.backoff (cfg.backoff_base ^ a)]) (List.replicate (m + 1) (.resp r)) := by
          simp [requestLoop, hc, hhard, hr]
        rw [step]
        obtain ⟨o1, o2, o3⟩ := ih (paceEvents lim cfg.min_delay_sec cfg.now).2 (a + 1)
          (sends + 1) (sleeps ++ (paceEvents lim cfg.min_delay_sec cfg.now).1 ++
            [.backoff (cfg.backoff_base ^ a)]) (by omega) (by omega)
        refine ⟨o1, ?_, ?_⟩
        · rw [o2]
          omega
        · rw [o3, backoffSleeps_append, backoffSleeps_append, backoffSleeps_paceEvents]
          have hsingle : backoffSleeps [.backoff (cfg.backoff_base ^ a)] =
              [cfg.backoff_base ^ a] := by
            simp [backoffSleeps]
          rw [hsingle]
          have hr1 : (m + 1 + 1) - 1 = m + 1 := by omega
          have hr2 : (m + 1) - 1 = m := by omega
          rw [hr1, hr2, geom_map_cons]
          simp

/-- C6: with a transport that returns a transient status (429, 500, 502,
503 or 504) on every send and `max_attempts = N ≥ 1`, the executor performs
exactly `N` attempts with exponential-backoff sleeps between them and
returns the last response unmodified rather than raising. -/
theorem C6_transient_exhaustion_returns (cfg : ExecConfig) (N : Nat)
    (lim : Option Limiter) (r : HttpResponse) (hN : 1 ≤ N)
    (hM : cfg.max_attempts = N)
    (hr : r.status = 429 ∨ r.status = 500 ∨ r.status = 502 ∨ r.status = 503 ∨
      r.status = 504) :
    (request_with_rate_limit cfg lim (List.replicate N (.resp r))).outcome =
      .returned r ∧
    (request_with_rate_limit cfg lim (List.replicate N (.resp r))).sends = N ∧
    backoffSleeps (request_with_rate_limit cfg lim (List.replicate N (.resp r))).sleeps =
      (List.range (N - 1)).map (fun j => cfg.backoff_base ^ j) := by
  obtain ⟨o1, o2, o3⟩ := requestLoop_transient_replicate cfg r hr N lim 0 0 [] (by omega) hN
  refine ⟨o1, by simpa using o2, ?_⟩
  rw [request_with_rate_limit, o3]
  simp [backoffSleeps]

/-- C6 witness: three 503 responses with `max_attempts = 3` return the 503
after exactly 3 sends. -/
theorem C6_transient_exhaustion_returns_witness :
    (request_with_rate_limit ⟨3, 2, 0, 1000⟩ none
        (List.replicate 3 (.resp ⟨503, none, none, none, none⟩))).outcome =
      .returned ⟨503, none, none, none, none⟩ ∧
    (request_with_rate_limit ⟨3, 2, 0, 1000⟩ none
        (List.replicate 3 (.resp ⟨503, none, none, none, none⟩))).sends = 3 :=
  ⟨(C6_transient_exhaustion_returns ⟨3, 2, 0, 1000⟩ 3 none ⟨503, none, none, none, none⟩
      (by norm_num) rfl (by norm_num)).1,
   (C6_transient_exhaustion_returns ⟨3, 2, 0, 1000⟩ 3 none ⟨503, none, none, none, none⟩
      (by norm_num) rfl (by norm_num)).2.1⟩

/-- C2 counterexample: with `max_attempts = 2`, a lone transport error
leaves an attempt in hand (the run merely continues), but the same
transport error raises when it is preceded by a hard-exhaustion retry —
the hard-exhaustion iteration advanced the attempt counter, so it was
counted against `max_attempts`, contrary to the claim. -/
theorem C2_counterexample :
    (request_with_rate_limit ⟨2, 2, 0, 1000⟩ none
        [.resp ⟨403, none, some 0, some 1030, none⟩, .exn]).outcome = .raised ∧
    (request_with_rate_limit ⟨2, 2, 0, 1000⟩ none [.exn]).outcome = .outOfTrace ∧
    (request_with_rate_limit ⟨2, 2, 0, 1000⟩ none
        [.resp ⟨403, none, some 0, some 1030, none⟩]).attempt = 1 := by
  refine ⟨?_, ?_, ?_⟩ <;> decide

/-- C2 (amended): on a 403 whose remaining quota is 0 the executor sleeps
`max(0, reset − now + 2)`, bumps the limiter, and retries unconditionally —
the hard-exhaustion branch itself never consults `max_attempts` — but the
attempt counter is incremented at the top of every loop iteration,
including one entered through a hard-exhaustion retry, so such a retry does
reduce the attempts available to later failures. -/
theorem C2_hard_exhaustion_amended (cfg : ExecConfig) (lim : Option Limiter)
    (a sends : Nat) (sleeps : List SleepEvent) (rest : List SendOutcome)
    (r : HttpResponse) (h403 : r.status = 403) (hrem : r.remaining.getD 0 = 0) :
    requestLoop cfg lim a sends sleeps (.resp r :: rest) =
      requestLoop cfg
        ((paceEvents lim cfg.min_delay_sec cfg.now).2.map bump_after_hard_reset)
        (a + 1) (sends + 1)
        (sleeps ++ (paceEvents lim cfg.min_delay_sec cfg.now).1 ++
          [.hardReset (max 0 ((r.reset.getD 0 : ℚ) - cfg.now + 2))]) rest := by
  have hhard : computeRateLimitSleep r cfg.now =
      some (max 0 ((r.reset.getD 0 : ℚ) - cfg.now + 2)) := by
    simp [computeRateLimitSleep, h403, hrem]
  simp [requestLoop, hhard]

/-- C2 witness: the amended step equation applied to a concrete
hard-exhausted 403, showing the attempt counter landed at 1 (not 0). -/
theorem C2_hard_exhaustion_amended_witness :
    (requestLoop ⟨2, 2, 0, 1000⟩ none 0 0 []
        [.resp ⟨403, none, some 0, some 1030, none⟩]).attempt = 0 + 1 := by
  rw [C2_hard_exhaustion_amended ⟨2, 2, 0, 1000⟩ none 0 0 [] []
    ⟨403, none, some 0, some 1030, none⟩ rfl rfl]
  rfl

/-- C3 counterexample: a 403 with nonzero remaining quota and
`Retry-After: 5` is not retried — the executor sleeps 5 seconds and then
returns the 403 to the caller — and the interval is multiplied by 1.5
(giving 1.5 from 1), not doubled via `bump_after_hard_reset` (which would
give 2). -/
theorem C3_counterexample :
    (request_with_rate_limit ⟨6, 2, 0, 1000⟩ (some ⟨1, 0.15, 5, 0.6, 0.3, 1000⟩)
        [.resp ⟨403, none, some 1, none, some 5⟩]).outcome =
      .returned ⟨403, none, some 1, none, some 5⟩ ∧
    ((request_with_rate_limit ⟨6, 2, 0, 1000⟩ (some ⟨1, 0.15, 5, 0.6, 0.3, 1000⟩)
        [.resp ⟨403, none, some 1, none, some 5⟩]).limiter.map Limiter.interval) =
      some 1.5 ∧
    ((request_with_rate_limit ⟨6, 2, 0, 1000⟩ (some ⟨1, 0.15, 5, 0.6, 0.3, 1000⟩)
        [.resp ⟨403, none, some 1, none, some 5⟩]).limiter.map Limiter.interval) ≠
      some (bump_after_hard_reset ⟨1, 0.15, 5, 0.6, 0.3, 1000⟩).interval := by
  refine ⟨by decide, ?_, ?_⟩ <;>
    norm_num [request_with_rate_limit, requestLoop, paceEvents, wait_turn, grantedStart,
      computeRateLimitSleep, adjust_from_response, retry_after_signal,
      bump_after_hard_reset, min_def, max_def]

/-- C3 (amended): a 403 that is not hard-exhausted and carries a positive
`Retry-After` is handled after the fact by `adjust_from_response`: the
limiter's `next_eligible` is set to `now + wait`, its interval is
multiplied by 1.5 clamped to `max_interval`, the wait is slept, and the
response is returned to the caller without a retry; a 429, by contrast, is
intercepted by the transient branch, which ignores `Retry-After` and
retries with exponential backoff, consuming an attempt. -/
theorem C3_secondary_limit_amended (cfg : ExecConfig) (l : Limiter)
    (a sends : Nat) (sleeps : List SleepEvent) (rest : List SendOutcome)
    (r : HttpResponse) (h403 : r.status = 403) (hrem : r.remaining.getD 0 ≠ 0)
    (ra : ℚ) (hra : r.retryAfter = some ra) (hpos : 0 < ra) :
    ((requestLoop cfg (some l) a sends sleeps (.resp r :: rest)).outcome =
        .returned r ∧
      (requestLoop cfg (some l) a sends sleeps (.resp r :: rest)).sends = sends + 1 ∧
      (requestLoop cfg (some l) a sends sleeps (.resp r :: rest)).limiter =
        some { (wait_turn l cfg.now).2 with
                next_ts := cfg.now + ra
                interval := min l.max_interval (l.interval * 1.5) } ∧
      (requestLoop cfg (some l) a sends sleeps (.resp r :: rest)).sleeps =
        sleeps ++ (paceEvents (some l) cfg.min_delay_sec cfg.now).1 ++
          [.retryAfter ra]) ∧
    (∀ r2 : HttpResponse, r2.status = 429 → ¬ cfg.max_attempts ≤ a + 1 →
      requestLoop cfg (some l) a sends sleeps (.resp r2 :: rest) =
        requestLoop cfg (some (wait_turn l cfg.now).2) (a + 1) (sends + 1)
          (sleeps ++ (paceEvents (some l) cfg.min_delay_sec cfg.now).1 ++
            [.backoff (cfg.backoff_base ^ a)]) rest) := by
  constructor
  · have hhard : computeRateLimitSleep r cfg.now = none := by
      simp [computeRateLimitSleep, hrem]
    have hnt : ¬ (r.status = 429 ∨ r.status = 500 ∨ r.status = 502 ∨
        r.status = 503 ∨ r.status = 504) := by
      simp [h403]
    have hsig : retry_after_signal r = some ra := by
      simp [retry_after_signal, h403, hra, hpos]
    have hadj : adjust_from_response (wait_turn l cfg.now).2 r cfg.now =
        (ra, { (wait_turn l cfg.now).2 with
                next_ts := cfg.now + ra
                interval := min l.max_interval (l.interval * 1.5) }) := by
      rw [adjust_from_response, hsig]
      rfl
    refine ⟨?_, ?_, ?_, ?_⟩ <;>
      simp [requestLoop, hhard, hnt, paceEvents, hadj, hpos]
  · intro r2 h429 hc
    have hhard2 : computeRateLimitSleep r2 cfg.now = none := by
      simp [computeRateLimitSleep, h429]
    simp [requestLoop, hhard2, h429, hc, paceEvents]

/-- C3 witness: the amended theorem at a concrete 403 with
`Retry-After: 5`. -/
theorem C3_secondary_limit_amended_witness :
    (requestLoop ⟨6, 2, 0, 1000⟩ (some ⟨1, 0.15, 5, 0.6, 0.3, 1000⟩) 0 0 []
        [.resp ⟨403, none, some 1, none, some 5⟩]).outcome =
      .returned ⟨403, none, some 1, none, some 5⟩ :=
  ((C3_secondary_limit_amended ⟨6, 2, 0, 1000⟩ ⟨1, 0.15, 5, 0.6, 0.3, 1000⟩ 0 0 [] []
      ⟨403, none, some 1, none, some 5⟩ rfl (by decide) 5 rfl (by norm_num)).1).1

end AuditGH
